import Mathlib

/-!
Verification development for the rate-lock workflow coordination layer.

The Python sources under src/ are shallowly embedded: dictionaries become
association lists over a small JSON value type, machine time becomes a
natural-number epoch-seconds parameter, the external JSON decoder
(json.loads) becomes a function parameter, and fallible code returns
Except.  Every definition mirrors one Python function and is named after
it where Lean allows.
-/

set_option maxRecDepth 4000

namespace RateLock

/-- Model of a Python/JSON value as stored in message bodies and Cosmos
documents.  Numbers are modelled as integers (the values relevant to the
claims are integral epoch seconds). -/
inductive Json where
  | null : Json
  | str (s : String) : Json
  | num (n : Int) : Json
  | bool (b : Bool) : Json
  | arr (xs : List Json) : Json
  | obj (fields : List (String × Json)) : Json
deriving Repr

/-- Python truthiness of a JSON value: None, "", 0, False, [] and
empty dicts are falsy, everything else truthy. -/
def Json.truthy : Json → Bool
  | .null => false
  | .str s => !(s = "")
  | .num n => !(n = 0)
  | .bool b => b
  | .arr xs => !xs.isEmpty
  | .obj fs => !fs.isEmpty

/-- Python dict lookup d.get(k): first binding of the key, if any. -/
def alistGet (d : List (String × Json)) (k : String) : Option Json :=
  (d.find? (fun p => p.1 = k)).map Prod.snd

/-- Python dict assignment d[k] = v: replace the binding in place if the
key is present, else append the new binding. -/
def alistSet (d : List (String × Json)) (k : String) (v : Json) :
    List (String × Json) :=
  if (d.find? (fun p => p.1 = k)).isSome then
    d.map (fun p => if p.1 = k then (p.1, v) else p)
  else d ++ [(k, v)]

/-- Python dict.update(u): assign every binding of u into d in order. -/
def alistUpdate (d u : List (String × Json)) : List (String × Json) :=
  u.foldl (fun acc p => alistSet acc p.1 p.2) d

/-- String lookup in transport application properties (a dict of
routing strings).  An absent or empty dict yields none, matching the
guarded access in the source. -/
def propsGet (props : List (String × String)) (k : String) : Option String :=
  (props.find? (fun p => p.1 = k)).map Prod.snd

/-! ## UTF-8 decoding (model of bytes.decode in CPython, strict mode)

Python raises UnicodeDecodeError on invalid input; the model returns
none.  Code points are produced as naturals and rendered as a Lean
String; all checks of the strict codec (continuation bytes, overlong
encodings, surrogates, the 0x10FFFF ceiling) are performed. -/

/-- Whether a byte is a UTF-8 continuation byte (0x80..0xBF). -/
def isCont (b : Nat) : Bool := 0x80 ≤ b && b < 0xC0

/-- Decode a UTF-8 byte sequence to its list of code points, or none if
the sequence is invalid (models bytes.decode with strict errors). -/
def utf8Decode : List Nat → Option (List Nat)
  | [] => some []
  | b :: rest =>
    if b < 0x80 then
      (utf8Decode rest).map (fun cs => b :: cs)
    else if b < 0xC2 then
      none
    else if b < 0xE0 then
      match rest with
      | b1 :: r =>
        if isCont b1 then
          (utf8Decode r).map (fun cs => ((b - 0xC0) * 64 + (b1 - 0x80)) :: cs)
        else none
      | [] => none
    else if b < 0xF0 then
      match rest with
      | b1 :: b2 :: r =>
        let cp := (b - 0xE0) * 4096 + (b1 - 0x80) * 64 + (b2 - 0x80)
        if isCont b1 && isCont b2 && decide (0x800 ≤ cp) &&
            !(0xD800 ≤ cp && cp ≤ 0xDFFF) then
          (utf8Decode r).map (fun cs => cp :: cs)
        else none
      | _ => none
    else if b < 0xF5 then
      match rest with
      | b1 :: b2 :: b3 :: r =>
        let cp := (b - 0xF0) * 262144 + (b1 - 0x80) * 4096 +
          (b2 - 0x80) * 64 + (b3 - 0x80)
        if isCont b1 && isCont b2 && isCont b3 &&
            decide (0x10000 ≤ cp) && decide (cp ≤ 0x10FFFF) then
          (utf8Decode r).map (fun cs => cp :: cs)
        else none
      | _ => none
    else none

/-- Render decoded code points as a Lean string. -/
def codePointsToString (cs : List Nat) : String :=
  String.mk (cs.map Char.ofNat)

/-- Model of part.decode for a bytes value: decode UTF-8 or fail. -/
def pyDecodeUtf8 (bs : List Nat) : Option String :=
  (utf8Decode bs).map codePointsToString

/-! ## Message body parsing (ServiceBusOperations._parse_message_body) -/

/-- One part of a multi-part transport body: bytes or an already-string
part (str(part) is applied to non-bytes parts in the source). -/
inductive RawPart where
  | bytes (bs : List Nat) : RawPart
  | str (s : String) : RawPart
deriving Repr, DecidableEq

/-- Raw transport body as received from the broker. -/
inductive RawBody where
  | none : RawBody
  | bytes (bs : List Nat) : RawBody
  | str (s : String) : RawBody
  | parts (ps : List RawPart) : RawBody
deriving Repr, DecidableEq

/-- Python falsiness of the raw body (the `if not raw_body` guard):
None, empty bytes, empty string and an empty parts list are falsy. -/
def RawBody.falsy : RawBody → Bool
  | .none => true
  | .bytes bs => bs.isEmpty
  | .str s => s = ""
  | .parts ps => ps.isEmpty

/-- Exceptions the body parser can propagate. -/
inductive PyErr where
  | unicodeDecodeError : PyErr
deriving Repr, DecidableEq

/-- Parsed body: a JSON object when json.loads succeeds, plain text
otherwise ("" for empty input). -/
inductive BodyVal where
  | json (j : Json) : BodyVal
  | text (s : String) : BodyVal
deriving Repr

/-- Decode one part of an iterable body (the join comprehension in the
source): bytes parts are UTF-8 decoded (may raise), str parts pass
through. -/
def decodePart : RawPart → Except PyErr String
  | .bytes bs =>
    match pyDecodeUtf8 bs with
    | some s => .ok s
    | Option.none => .error .unicodeDecodeError
  | .str s => .ok s

/-- Assemble the body text (the string-conversion phase of
_parse_message_body) before the JSON attempt. -/
def assembleBodyText : RawBody → Except PyErr String
  | .none => .ok ""
  | .bytes bs =>
    match pyDecodeUtf8 bs with
    | some s => .ok s
    | Option.none => .error .unicodeDecodeError
  | .str s => .ok s
  | .parts ps => do
    let ss ← ps.mapM decodePart
    return String.join ss

/-- Model of ServiceBusOperations._parse_message_body.  jloads is the
external json.loads collaborator: some on well-formed JSON text, none on
a JSONDecodeError.  The empty/absent body short-circuits to "";
otherwise the assembled text is parsed as JSON if possible and kept as
plain text if not. -/
def parse_message_body (jloads : String → Option Json) (raw : RawBody) :
    Except PyErr BodyVal :=
  if raw.falsy then .ok (.text "")
  else do
    let s ← assembleBodyText raw
    if s = "" then
      return .text ""
    else
      match jloads s with
      | some j => return .json j
      | Option.none => return .text s

/-! ## Envelope normalization (ServiceBusOperations._create_standard_message) -/

/-- Resolution of message_type / loan_application_id for the normalized
envelope (lines 126-137 of service_bus_operations.py): the application
property is read first, then a dict body field overrides it when the
field is present and truthy (the `or` chain in the source). -/
def resolveField (props : List (String × String)) (propKey : String)
    (parsedBody : BodyVal) (bodyKey : String) : Option Json :=
  let fromProps : Option Json := (propsGet props propKey).map .str
  match parsedBody with
  | .json (.obj fields) =>
    match alistGet fields bodyKey with
    | some v => if v.truthy then some v else fromProps
    | Option.none => fromProps
  | _ => fromProps

/-- Transport-level received message (the fields of the Azure SDK
object that _create_standard_message reads). -/
structure TransportMsg where
  body : RawBody
  application_properties : List (String × String)
  correlation_id : Option String
  message_id : String
  content_type : Option String
  delivery_count : Nat
  enqueued_time : Option String
deriving Repr, DecidableEq

/-- The normalized envelope handed to agents. -/
structure StdMessage where
  message_type : Option Json
  loan_application_id : Option Json
  body : BodyVal
  correlation_id : Option String
  message_id : String
  properties : List (String × String)
deriving Repr

/-- Model of ServiceBusOperations._create_standard_message: parse the
body, then resolve message_type and loan_application_id.  Body parsing
can propagate a decode error exactly as the source can. -/
def create_standard_message (jloads : String → Option Json)
    (msg : TransportMsg) : Except PyErr StdMessage := do
  let parsedBody ← parse_message_body jloads msg.body
  return {
    message_type := resolveField msg.application_properties "MessageType"
      parsedBody "message_type"
    loan_application_id := resolveField msg.application_properties
      "LoanApplicationId" parsedBody "loan_application_id"
    body := parsedBody
    correlation_id := msg.correlation_id
    message_id := msg.message_id
    properties := msg.application_properties }

/-! ## Agent message handling (BaseAgent.handle_message)

The LLM stage is an external oracle: its run is a parameter carrying the
outcome (a response string or a raised exception rendered by str) and
the plugin side effects the model performed before finishing. -/

/-- An observable side effect reaching the broker or record store. -/
inductive Effect where
  | exceptionAlert (exception_type priority error_message : String)
      (loan_id : Option Json) : Effect
  | llmStep (n : Nat) : Effect
deriving Repr

/-- Outcome of one _call_llm invocation together with the plugin calls
the model performed. -/
structure LLMRun where
  result : Except String String
  effects : List Effect
deriving Repr

/-- Parameter names of ServiceBusPlugin.send_exception (all required,
no defaults), from service_bus_plugin.py. -/
def pluginSendExceptionParams : List String :=
  ["exception_type", "priority", "loan_application_id", "exception_data"]

/-- Keyword arguments used at the call site in
BaseAgent._send_exception_alert (base_agent.py lines 357-364). -/
def baseAgentSendExceptionKwargs : List String :=
  ["exception_type", "priority", "error_message", "loan_application_id",
   "agent_name", "additional_data"]

/-- Python keyword-argument binding: every supplied keyword must be a
declared parameter and every required parameter must be supplied,
otherwise the call raises TypeError. -/
def kwargsBind (params kwargs : List String) : Bool :=
  kwargs.all (fun k => params.contains k) &&
    params.all (fun p => kwargs.contains p)

/-- Model of BaseAgent._send_exception_alert: it invokes
plugin.send_exception with the keyword arguments above inside a
try/except that swallows every failure, so an alert message is produced
only when the call binds. -/
def send_exception_alert_helper (exception_type priority error_message :
    String) (loan_id : Option Json) : List Effect :=
  if kwargsBind pluginSendExceptionParams baseAgentSendExceptionKwargs then
    [.exceptionAlert exception_type priority error_message loan_id]
  else []

/-- Whether the envelope message_type is a member of the expected list
(the Python membership test against a list of strings). -/
def messageTypeIn (mt : Option Json) (l : List String) : Bool :=
  match mt with
  | some (.str s) => l.contains s
  | _ => false

/-- The skip condition of BaseAgent.handle_message: a non-empty
expected list that does not contain the message type. -/
def unexpectedType (expected : Option (List String)) (mt : Option Json) :
    Bool :=
  match expected with
  | some l => !l.isEmpty && !(messageTypeIn mt l)
  | none => false

/-- Model of BaseAgent.handle_message.  expected is the list returned by
_get_expected_message_types (none for the default).  On an unexpected
type the handler returns with no effects; otherwise the LLM run is
performed and, when it raises, the handler emits the exception-alert
attempt and re-raises the original exception. -/
def handle_message (expected : Option (List String)) (llm : LLMRun)
    (msg : StdMessage) : Except String Unit × List Effect :=
  let loanId := msg.loan_application_id
  if unexpectedType expected msg.message_type then (.ok (), [])
  else
    match llm.result with
    | .ok _ => (.ok (), llm.effects)
    | .error e =>
      (.error e,
        llm.effects ++
          send_exception_alert_helper "TECHNICAL_ERROR" "high"
            ("Failed to process message: " ++ e) loanId)

/-- How the listener loop classifies the handler invocation: completion
on a normal return, abandonment on a raised exception. -/
def handlerSucceeded : Except String Unit → Bool
  | .ok _ => true
  | .error _ => false

/-! ## LLM retry loop (BaseAgent._call_llm)

The oracle is a function from the attempt index to its outcome, the
jitter samples are a function from the retry number to a rational in
[0, 1/4] (model of random.uniform(0, 0.25)); delays are returned as the
list of backoff sleeps in seconds. -/

/-- Outcome of one chat-completion attempt. -/
inductive LLMOutcome where
  | success (s : String) : LLMOutcome
  | rateLimit : LLMOutcome
  | otherError (e : String) : LLMOutcome
deriving Repr, DecidableEq

/-- Errors _call_llm can raise to the handler boundary. -/
inductive LLMErr where
  | rateLimitExceeded : LLMErr
  | other (e : String) : LLMErr
deriving Repr, DecidableEq

/-- One unfolding of the while loop of _call_llm.  rc is retry_count at
loop entry; fuel bounds the recursion (the loop executes at most
maxRetries + 1 iterations, so starting fuel maxRetries + 1 makes the
fuel-0 branch unreachable; that branch models the fall-through of the
while loop, which the source never reaches). -/
def call_llm_go (oracle : Nat → LLMOutcome) (u : Nat → ℚ) (base : ℚ)
    (maxRetries : Nat) : Nat → Nat → Except LLMErr String × List ℚ
  | _, 0 => (.error .rateLimitExceeded, [])
  | rc, fuel + 1 =>
    match oracle rc with
    | .success s => (.ok s, [])
    | .otherError e => (.error (.other e), [])
    | .rateLimit =>
      let rc2 := rc + 1
      if maxRetries < rc2 then (.error .rateLimitExceeded, [])
      else
        let delay := (2 ^ rc2 : ℚ) * base
        let jitter := delay * u rc2
        let rest := call_llm_go oracle u base maxRetries rc2 fuel
        (rest.1, (delay + jitter) :: rest.2)

/-- Model of BaseAgent._call_llm: retry_count starts at 0, base_delay is
1 second, max_retries defaults to 5.  Returns the final outcome and the
list of backoff delays slept between attempts. -/
def call_llm (oracle : Nat → LLMOutcome) (u : Nat → ℚ)
    (maxRetries : Nat := 5) (base : ℚ := 1) :
    Except LLMErr String × List ℚ :=
  call_llm_go oracle u base maxRetries 0 (maxRetries + 1)

/-! ## Listener loops (listen_to_subscription / listen_to_queue)

One received batch is processed sequentially; for each message the stop
signal is consulted first (abandon and continue when set), otherwise the
handler runs and the message is completed on success and abandoned on a
raised exception. -/

/-- What the listener did with one received message. -/
inductive MsgAction where
  | completed : MsgAction
  | handlerAbandoned : MsgAction
  | stopAbandoned : MsgAction
deriving Repr, DecidableEq

/-- Whether a handler invocation happened for the action. -/
def MsgAction.invoked : MsgAction → Bool
  | .completed => true
  | .handlerAbandoned => true
  | .stopAbandoned => false

/-- Per-message step of the batch loop shared by both listeners
(service_bus_operations.py lines 537-557 and 629-649). -/
def listenerStep (stopSet : Bool) (handlerOk : Bool) : MsgAction :=
  if stopSet then .stopAbandoned
  else if handlerOk then .completed
  else .handlerAbandoned

/-- Batch processing of listen_to_subscription: message i of the batch
sees stop state stopAt i and handler outcome handlerOk i. -/
def listen_to_subscription_batch (stopAt handlerOk : Nat → Bool)
    (n : Nat) : List MsgAction :=
  (List.range n).map (fun i => listenerStep (stopAt i) (handlerOk i))

/-- Batch processing of listen_to_queue (textually duplicated loop in
the source, embedded separately). -/
def listen_to_queue_batch (stopAt handlerOk : Nat → Bool)
    (n : Nat) : List MsgAction :=
  (List.range n).map (fun i => listenerStep (stopAt i) (handlerOk i))

/-! ## Time rendering

Wall-clock time is a natural number of epoch seconds; the distinct
strftime / isoformat renderings used by the source are modelled as
injective renderings of that instant. -/

/-- Model of datetime.utcnow().isoformat(). -/
def isoStr (now : Nat) : String := toString now

/-- Model of strftime for timestamped record ids. -/
def fmtTs (now : Nat) : String := toString now

/-- Model of the date-only strftime used for audit partition keys. -/
def dateStr (now : Nat) : String := toString now

/-! ## Service Bus configuration and send path -/

/-- Entity names resolved by config.azure_config.AzureConfig, with the
defaults used when the environment variables are unset.

Modelled from the spec: AzureConfig.get_servicebus_topic_workflow_events
is absent from src (only its callers in main.py and
service_bus_operations.py exist); the spec names the general workflow
topic agent-workflow-events, which is taken as its value here. -/
structure AzureConfigNames where
  queue_inbound_email : String := "inbound-email-queue"
  queue_outbound_confirmations : String := "outbound-email-queue"
  queue_high_priority_exceptions : String := "high-priority-exceptions"
  topic_workflow_events : String := "agent-workflow-events"
  topic_loan_lifecycle : String := "loan-lifecycle-events"
  topic_audit_events : String := "audit-events"
  topic_compliance_events : String := "compliance-events"
  topic_exception_alerts : String := "exception-alerts"
deriving Repr, DecidableEq

/-- The logical-to-actual queue map built in
ServiceBusOperations.__init__ (note the underscore spelling of the
keys). -/
def sbQueues (cfg : AzureConfigNames) : List (String × String) :=
  [("inbound_email", cfg.queue_inbound_email),
   ("outbound_confirmations", cfg.queue_outbound_confirmations),
   ("high_priority_exceptions", cfg.queue_high_priority_exceptions)]

/-- The logical-to-actual topic map built in
ServiceBusOperations.__init__. -/
def sbTopics (cfg : AzureConfigNames) : List (String × String) :=
  [("agent-workflow-events", cfg.topic_workflow_events),
   ("loan_lifecycle", cfg.topic_loan_lifecycle),
   ("audit_events", cfg.topic_audit_events),
   ("compliance_events", cfg.topic_compliance_events),
   ("exception_alerts", cfg.topic_exception_alerts)]

/-- A message that actually reached the broker. -/
structure SentMessage where
  destination : String
  destinationType : String
  body : String
  contentType : String
  correlationId : Option String
  appProps : List (String × String)
deriving Repr, DecidableEq

/-- Python truthiness of an optional string (None and "" are falsy). -/
def optStrTruthy : Option String → Bool
  | some s => !(s = "")
  | none => false

/-- Model of ServiceBusOperations.send_message.  Destination lookup uses
dict.get with no default: an unknown logical name raises ValueError,
which the enclosing try/except converts into a False result with
nothing sent.  Routing application properties are attached only on the
topic path. -/
def send_message (cfg : AzureConfigNames) (now : Nat)
    (destination_name message_body : String)
    (correlation_id : Option String) (destination_type : String)
    (message_type target_agent : Option String)
    (priority : String := "normal") : Bool × List SentMessage :=
  let resolved : Option String :=
    if destination_type = "topic" then
      propsGet (sbTopics cfg) destination_name
    else if destination_type = "queue" then
      propsGet (sbQueues cfg) destination_name
    else none
  match resolved with
  | none => (false, [])
  | some actual =>
    let contentType :=
      if message_body.trim.startsWith "\x7b" then "application/json"
      else "text/plain"
    let routingProps : List (String × String) :=
      if destination_type = "topic" then
        [("MessageType", message_type.getD "unknown"),
         ("TargetAgent", target_agent.getD "unknown"),
         ("Priority", priority),
         ("Timestamp", isoStr now)] ++
          (if optStrTruthy correlation_id then
            [("LoanApplicationId", correlation_id.getD "")]
          else [])
      else []
    (true,
      [{ destination := actual
         destinationType := destination_type
         body := message_body
         contentType := contentType
         correlationId := correlation_id
         appProps := routingProps }])

/-- Model of ServiceBusOperations.send_exception_alert.  jloads stands
for json.loads applied to the exception_data string, jdumps for
json.dumps of the structured body.  High and critical priorities pick
the dedicated queue destination, everything else the general workflow
topic. -/
def send_exception_alert (cfg : AzureConfigNames) (now : Nat)
    (jloads : String → Option Json) (jdumps : Json → String)
    (exception_type priority loan_application_id exception_data : String) :
    Bool × List SentMessage :=
  let details : Json :=
    match jloads exception_data with
    | some j => j
    | none => .obj [("raw_data", .str exception_data)]
  let message_body : Json :=
    .obj [("message_type", .str "exception_alert"),
          ("loan_application_id", .str loan_application_id),
          ("exception_type", .str exception_type),
          ("priority", .str priority),
          ("exception_data", details),
          ("timestamp", .str (isoStr now))]
  let dest :=
    if priority = "high" || priority = "critical" then
      ("high-priority-exceptions", "queue")
    else
      ("agent-workflow-events", "topic")
  send_message cfg now dest.1 (jdumps message_body)
    (some loan_application_id) dest.2 (some "exception_alert")
    (some "exception_handler") priority

/-! ## Cosmos DB record store (CosmosDBOperations)

A container is a list of JSON documents; the partition key path of the
container is passed explicitly (loanApplicationId for rate-lock
records, auditDate for audit logs, priority for exceptions, as in the
infrastructure template the source targets). -/

/-- A stored document. -/
abbrev Doc := List (String × Json)

/-- A container of documents. -/
abbrev Container := List (List (String × Json))

/-- The string value of a document field, when it is a string. -/
def docStrField (d : List (String × Json)) (k : String) : Option String :=
  match alistGet d k with
  | some (.str s) => some s
  | _ => none

/-- Whether a document matches a given id and partition-key value. -/
def docMatches (pkField : String) (d : List (String × Json))
    (pk id : String) : Bool :=
  docStrField d "id" = some id && docStrField d pkField = some pk

/-- Cosmos read_item: the document with the given id in the given
partition, or none (the SDK raises CosmosResourceNotFoundError). -/
def readItem (pkField : String) (c : Container) (pk id : String) :
    Option (List (String × Json)) :=
  c.find? (fun d => docMatches pkField d pk id)

/-- Cosmos create_item: inserts the document, or fails with conflict
(CosmosResourceExistsError) when a document with the same id already
exists in the same logical partition. -/
def createItem (pkField : String) (c : Container)
    (d : List (String × Json)) : Option Container :=
  if c.any (fun r =>
      docStrField r "id" = docStrField d "id" &&
      docStrField r pkField = docStrField d pkField) then
    none
  else some (c ++ [d])

/-- Cosmos replace_item: overwrite the document with the given id and
partition-key value. -/
def replaceItem (pkField : String) (c : Container) (pk id : String)
    (d : List (String × Json)) : Container :=
  c.map (fun r => if docMatches pkField r pk id then d else r)

/-- Model of CosmosDBOperations.create_rate_lock_record: build the
record (base fields, then the caller data merged over them), then
create_item; every exception, including a same-id conflict, is caught
and reported as False with the container unchanged. -/
def create_rate_lock_record (c : Container) (loan_application_id : String)
    (rate_lock_data : List (String × Json)) (now : Nat) :
    Bool × Container :=
  let defaultId := "rate_lock_" ++ loan_application_id ++ "_" ++ fmtTs now
  let record : List (String × Json) :=
    alistUpdate
      [("id", (alistGet rate_lock_data "id").getD (.str defaultId)),
       ("loanApplicationId", .str loan_application_id),
       ("created_at", .str (isoStr now)),
       ("updated_at", .str (isoStr now)),
       ("status", (alistGet rate_lock_data "status").getD
          (.str "PendingRequest"))]
      rate_lock_data
  match createItem "loanApplicationId" c record with
  | some c2 => (true, c2)
  | none => (false, c)

/-- Model of CosmosDBOperations.update_rate_lock_status: read the
current record, overwrite status, refresh updated_at, merge the updates
dict over the record, and replace the item.  A missing record (read_item
raising) is caught and reported as False. -/
def update_rate_lock_status (c : Container)
    (loan_application_id record_id status : String)
    (updates : List (String × Json)) (now : Nat) : Bool × Container :=
  match readItem "loanApplicationId" c loan_application_id record_id with
  | none => (false, c)
  | some rec =>
    let rec1 := alistSet rec "status" (.str status)
    let rec2 := alistSet rec1 "updated_at" (.str (isoStr now))
    let rec3 := if updates.isEmpty then rec2 else alistUpdate rec2 updates
    (true, replaceItem "loanApplicationId" c loan_application_id record_id
      rec3)

/-- Model of CosmosDBPlugin.update_rate_lock_status: update_details is
the already-parsed JSON dict ({} when absent or malformed, as the
source swallows a JSONDecodeError).  The wrapper builds the updates
dict, installs a freshly built status_history list containing the new
entry, and delegates to the operations layer.  A status_history value
in update_details that is not a list makes the append raise, which the
outer except converts into a failure with no store change. -/
def plugin_update_rate_lock_status (c : Container)
    (loan_application_id record_id new_status : String)
    (agent_name : Option String)
    (update_details : List (String × Json)) (now : Nat) :
    Bool × Container :=
  let updates1 :=
    if optStrTruthy agent_name then
      alistSet update_details "last_updated_by"
        (.str (agent_name.getD ""))
    else update_details
  match alistGet updates1 "status_history" with
  | some (.arr hist0) =>
    let entry : Json :=
      .obj [("status", .str new_status),
            ("updated_at", .str (isoStr now)),
            ("updated_by",
              .str (if optStrTruthy agent_name then agent_name.getD ""
                else "System"))]
    let updates2 := alistSet updates1 "status_history" (.arr (hist0 ++ [entry]))
    update_rate_lock_status c loan_application_id record_id new_status
      updates2 now
  | some _ => (false, c)
  | none =>
    let entry : Json :=
      .obj [("status", .str new_status),
            ("updated_at", .str (isoStr now)),
            ("updated_by",
              .str (if optStrTruthy agent_name then agent_name.getD ""
                else "System"))]
    let updates2 := alistSet updates1 "status_history" (.arr [entry])
    update_rate_lock_status c loan_application_id record_id new_status
      updates2 now

/-- Model of CosmosDBOperations.create_audit_log: the entry is written
with a ttl field computed as the integral epoch timestamp of
utcnow() + 30 days. -/
def create_audit_log (c : Container)
    (audit_data : List (String × Json)) (now : Nat) : Bool × Container :=
  let log_entry : List (String × Json) :=
    [("id", .str ("audit_" ++ fmtTs now)),
     ("auditDate", .str (dateStr now)),
     ("timestamp", .str (isoStr now)),
     ("agentName", (alistGet audit_data "agent_name").getD (.str "Unknown")),
     ("loanApplicationId",
       (alistGet audit_data "loan_application_id").getD .null),
     ("eventType", (alistGet audit_data "event_type").getD (.str "UNKNOWN")),
     ("action", (alistGet audit_data "action").getD .null),
     ("outcome", (alistGet audit_data "outcome").getD .null),
     ("details", (alistGet audit_data "details").getD (.obj [])),
     ("ttl", .num (Int.ofNat (now + 30 * 86400)))]
  match createItem "auditDate" c log_entry with
  | some c2 => (true, c2)
  | none => (false, c)

/-- Model of CosmosDBOperations.create_exception: the record is written
with a ttl field computed as the integral epoch timestamp of
utcnow() + 90 days; the exception id is returned on success and none on
failure. -/
def create_exception (c : Container) (priority : String)
    (exception_data : List (String × Json)) (now : Nat) :
    Option String × Container :=
  let exception_id := "exc_" ++ fmtTs now
  let exception_record : List (String × Json) :=
    [("id", .str exception_id),
     ("priority", .str priority.toLower),
     ("status", .str "open"),
     ("created", .str (isoStr now)),
     ("loanApplicationId",
       (alistGet exception_data "loan_application_id").getD .null),
     ("exceptionType", (alistGet exception_data "exception_type").getD .null),
     ("agentName", (alistGet exception_data "agent_name").getD .null),
     ("description", (alistGet exception_data "description").getD .null),
     ("context", (alistGet exception_data "context").getD (.obj [])),
     ("assignee", (alistGet exception_data "assignee").getD .null),
     ("estimatedResolutionTime",
       (alistGet exception_data "estimated_resolution_time").getD .null),
     ("ttl", .num (Int.ofNat (now + 90 * 86400)))]
  match createItem "priority" c exception_record with
  | some c2 => (some exception_id, c2)
  | none => (none, c)

/-! ## Concrete sample inputs used by counterexamples and witnesses -/

/-- Length of the status_history log of a record, when present and a
list. -/
def historyLength (r : List (String × Json)) : Option Nat :=
  match alistGet r "status_history" with
  | some (.arr xs) => some xs.length
  | _ => none

/-- A normalized envelope whose type matches the expected list and
whose processing will raise. -/
def msgBoom : StdMessage :=
  { message_type := some (.str "email_parsed")
    loan_application_id := some (.str "L1")
    body := .text ""
    correlation_id := Option.none
    message_id := "m1"
    properties := [] }

/-- A normalized envelope with a message type outside the expected
list. -/
def msgStray : StdMessage :=
  { message_type := some (.str "rate_quoted")
    loan_application_id := some (.str "L2")
    body := .text ""
    correlation_id := Option.none
    message_id := "m2"
    properties := [] }

/-- A persisted rate-lock record with an empty status_history log. -/
def recHist0 : List (String × Json) :=
  [("id", .str "r1"), ("loanApplicationId", .str "L1"),
   ("status", .str "PendingRequest"), ("status_history", .arr [])]

/-- The rate-lock record create_rate_lock_record builds for loan L1 at
time 100 with empty caller data. -/
def recT100 : List (String × Json) :=
  [("id", .str "rate_lock_L1_100"), ("loanApplicationId", .str "L1"),
   ("created_at", .str "100"), ("updated_at", .str "100"),
   ("status", .str "PendingRequest")]

/-- A persisted rate-lock record whose status_history already holds one
entry. -/
def recHist1 : List (String × Json) :=
  [("id", .str "r1"), ("loanApplicationId", .str "L1"),
   ("status", .str "PendingRequest"),
   ("status_history", .arr [.obj [("status", .str "PendingRequest")]])]

/-! ## Association-list lemmas (dict semantics) -/

theorem alistGet_cons (k0 k : String) (v0 : Json)
    (rest : List (String × Json)) :
    alistGet ((k0, v0) :: rest) k =
      if k0 = k then some v0 else alistGet rest k := by
  by_cases h : k0 = k <;> simp [alistGet, List.find?, h]

theorem find?_map_replace (d : List (String × Json)) (k : String) (v : Json) :
    (d.map (fun p => if p.1 = k then (p.1, v) else p)).find?
        (fun p => p.1 = k) =
      (d.find? (fun p => p.1 = k)).map (fun p => (p.1, v)) := by
  induction d with
  | nil => rfl
  | cons hd tl ih =>
    by_cases h : hd.1 = k <;> simp [List.find?, h, ih]

theorem find?_map_replace_ne (d : List (String × Json)) (k k2 : String)
    (v : Json) (hne : k2 ≠ k) :
    (d.map (fun p => if p.1 = k then (p.1, v) else p)).find?
        (fun p => p.1 = k2) =
      d.find? (fun p => p.1 = k2) := by
  induction d with
  | nil => rfl
  | cons hd tl ih =>
    by_cases h3 : hd.1 = k
    · have h2 : ¬ hd.1 = k2 := by
        rw [h3]; exact fun hh => hne hh.symm
      simp [List.find?, h3, h2, Ne.symm hne, ih]
    · by_cases h2 : hd.1 = k2 <;> simp [List.find?, h3, h2, hne, ih]

theorem alistGet_alistSet_self (d : List (String × Json)) (k : String)
    (v : Json) : alistGet (alistSet d k v) k = some v := by
  unfold alistSet
  by_cases h : (d.find? (fun p => p.1 = k)).isSome
  · rw [if_pos h]
    rcases Option.isSome_iff_exists.mp h with ⟨p, hp⟩
    unfold alistGet
    rw [find?_map_replace, hp]
    rfl
  · rw [if_neg h]
    have hnone : d.find? (fun p => p.1 = k) = none :=
      Option.not_isSome_iff_eq_none.mp h
    unfold alistGet
    rw [List.find?_append, hnone]
    simp [List.find?]

theorem alistGet_alistSet_ne (d : List (String × Json)) (k k2 : String)
    (v : Json) (hne : k2 ≠ k) :
    alistGet (alistSet d k v) k2 = alistGet d k2 := by
  unfold alistSet
  by_cases h : (d.find? (fun p => p.1 = k)).isSome
  · rw [if_pos h]
    unfold alistGet
    rw [find?_map_replace_ne _ _ _ _ hne]
  · rw [if_neg h]
    unfold alistGet
    rw [List.find?_append]
    have hsingle : List.find? (fun p => p.1 = k2) [(k, v)] = none := by
      simp [List.find?, Ne.symm hne]
    rw [hsingle]
    cases List.find? (fun p => decide (p.1 = k2)) d <;> rfl

theorem alistGet_eq_none_of_not_mem (d : List (String × Json)) (k : String)
    (h : k ∉ d.map Prod.fst) : alistGet d k = none := by
  unfold alistGet
  rw [List.find?_eq_none.mpr]
  · rfl
  · intro p hp
    simp only [decide_eq_true_eq]
    intro hk
    exact h (List.mem_map.mpr ⟨p, hp, hk⟩)

theorem alistGet_alistUpdate_of_none (d u : List (String × Json))
    (k : String) (h : alistGet u k = none) :
    alistGet (alistUpdate d u) k = alistGet d k := by
  induction u generalizing d with
  | nil => rfl
  | cons hd tl ih =>
    rw [alistGet_cons] at h
    by_cases hk : hd.1 = k
    · simp [hk] at h
    · rw [if_neg hk] at h
      show alistGet (alistUpdate (alistSet d hd.1 hd.2) tl) k = _
      rw [ih _ h, alistGet_alistSet_ne _ _ _ _ (fun hh => hk hh.symm)]

theorem alistGet_alistUpdate_of_some (d u : List (String × Json))
    (k : String) (v : Json) (hnodup : (u.map Prod.fst).Nodup)
    (h : alistGet u k = some v) :
    alistGet (alistUpdate d u) k = some v := by
  induction u generalizing d with
  | nil => simp [alistGet] at h
  | cons hd tl ih =>
    rw [alistGet_cons] at h
    simp only [List.map_cons, List.nodup_cons] at hnodup
    by_cases hk : hd.1 = k
    · rw [if_pos hk] at h
      have htl : alistGet tl k = none := by
        apply alistGet_eq_none_of_not_mem
        rw [← hk]
        exact hnodup.1
      show alistGet (alistUpdate (alistSet d hd.1 hd.2) tl) k = _
      rw [alistGet_alistUpdate_of_none _ _ _ htl, hk,
        alistGet_alistSet_self, ← h]
    · rw [if_neg hk] at h
      exact ih _ hnodup.2 h

/-! ## Claim theorems -/

/-- C5: an agent declaring a non-empty expected-message-type list that
receives a message whose type is not in the list returns without any
side effect: no store mutation, no workflow, audit or exception message,
and no raised error. -/
theorem C5_unexpected_type_is_noop (l : List String) (llm : LLMRun)
    (msg : StdMessage) (hne : l ≠ [])
    (hni : messageTypeIn msg.message_type l = false) :
    handle_message (some l) llm msg = (.ok (), []) := by
  have hempty : l.isEmpty = false := by
    cases l with
    | nil => exact absurd rfl hne
    | cons a t => rfl
  simp [handle_message, unexpectedType, hempty, hni]

/-- Witness for C5 at a concrete stray message. -/
theorem C5_unexpected_type_is_noop_witness :
    handle_message (some ["email_parsed", "context_retrieval_needed"])
      ⟨.error "boom", [.llmStep 0]⟩ msgStray = (.ok (), []) :=
  C5_unexpected_type_is_noop _ _ _ (by simp) (by rfl)

/-- C10: once the stop signal is set, every remaining message of the
received batch is abandoned without a handler invocation, in both the
topic-subscription listener and the queue listener. -/
theorem C10_stop_abandons_rest (stopAt handlerOk : Nat → Bool)
    (n i : Nat)
    (hmono : ∀ a b, a ≤ b → stopAt a = true → stopAt b = true)
    (hstop : stopAt i = true) :
    ∀ j, i ≤ j → j < n →
      (listen_to_subscription_batch stopAt handlerOk n).get? j =
          some .stopAbandoned ∧
      (listen_to_queue_batch stopAt handlerOk n).get? j =
          some .stopAbandoned ∧
      ((listen_to_subscription_batch stopAt handlerOk n).get? j).map
          MsgAction.invoked = some false ∧
      ((listen_to_queue_batch stopAt handlerOk n).get? j).map
          MsgAction.invoked = some false := by
  intro j hij hjn
  have hj : stopAt j = true := hmono i j hij hstop
  have hsub : (listen_to_subscription_batch stopAt handlerOk n).get? j =
      some .stopAbandoned := by
    unfold listen_to_subscription_batch
    rw [List.get?_map, List.get?_range hjn]
    simp [listenerStep, hj]
  have hque : (listen_to_queue_batch stopAt handlerOk n).get? j =
      some .stopAbandoned := by
    unfold listen_to_queue_batch
    rw [List.get?_map, List.get?_range hjn]
    simp [listenerStep, hj]
  exact ⟨hsub, hque, by rw [hsub]; rfl, by rw [hque]; rfl⟩

/-- Witness for C10: a batch of three messages where the stop signal is
raised after the first; messages 1 and 2 are abandoned unprocessed. -/
theorem C10_stop_abandons_rest_witness :
    (listen_to_subscription_batch (fun k => decide (1 ≤ k))
        (fun _ => true) 3).get? 2 = some .stopAbandoned ∧
    (listen_to_queue_batch (fun k => decide (1 ≤ k))
        (fun _ => true) 3).get? 2 = some .stopAbandoned :=
  ⟨(C10_stop_abandons_rest (fun k => decide (1 ≤ k)) (fun _ => true) 3 1
      (fun a b hab ha => by
        simp only [decide_eq_true_eq] at ha ⊢; omega)
      (by decide) 2 (by decide) (by decide)).1,
   (C10_stop_abandons_rest (fun k => decide (1 ≤ k)) (fun _ => true) 3 1
      (fun a b hab ha => by
        simp only [decide_eq_true_eq] at ha ⊢; omega)
      (by decide) 2 (by decide) (by decide)).2.1⟩

/-- C9: audit-log and exception records are intended to carry 30-day
and 90-day retentions, but the written ttl field is the absolute epoch
timestamp of now + 30 (resp. 90) days, not the 30-day (2592000 s) or
90-day (7776000 s) duration that the Cosmos ttl field semantics and the
source comments (Auto-delete after 30/90 days) require: at creation
time 1700000000 the stored values are 1702592000 and 1707776000. -/
theorem C9_ttl_is_absolute_timestamp :
    (create_audit_log [] [] 1700000000).1 = true ∧
    ((create_audit_log [] [] 1700000000).2.head?.bind
        (fun d => alistGet d "ttl")) = some (.num 1702592000) ∧
    ((create_exception [] "high" [] 1700000000).2.head?.bind
        (fun d => alistGet d "ttl")) = some (.num 1707776000) ∧
    (1702592000 : Int) ≠ 2592000 ∧ (1707776000 : Int) ≠ 7776000 := by
  refine ⟨rfl, rfl, rfl, by decide, by decide⟩

/-- C6: a high or critical priority exception alert is supposed to reach
the dedicated high-priority queue, but send_message looks the logical
name high-priority-exceptions up in the queues dict whose key is
spelled high_priority_exceptions, so the lookup fails, the raised
ValueError is swallowed, and nothing is sent (result False); medium and
low priorities do reach the agent-workflow-events topic with the
MessageType / TargetAgent / Priority routing properties. -/
theorem C6_high_priority_alert_never_sent :
    send_exception_alert {} 100 (fun _ => Option.none)
        (fun _ => "\x7b\x7d") "TECHNICAL_ERROR" "high" "L1" "boom" =
      (false, []) ∧
    send_exception_alert {} 100 (fun _ => Option.none)
        (fun _ => "\x7b\x7d") "TECHNICAL_ERROR" "critical" "L1" "boom" =
      (false, []) ∧
    (send_exception_alert {} 100 (fun _ => Option.none)
        (fun _ => "\x7b\x7d") "TECHNICAL_ERROR" "medium" "L1" "boom").1 =
      true ∧
    ((send_exception_alert {} 100 (fun _ => Option.none)
        (fun _ => "\x7b\x7d") "TECHNICAL_ERROR" "medium" "L1" "boom").2.map
      (fun m => (m.destination, m.destinationType, m.appProps))) =
      [("agent-workflow-events", "topic",
        [("MessageType", "exception_alert"),
         ("TargetAgent", "exception_handler"),
         ("Priority", "medium"), ("Timestamp", "100"),
         ("LoanApplicationId", "L1")])] := by
  refine ⟨rfl, rfl, rfl, rfl⟩

/-- C1 counterexample: a message whose type passes the expected check
and whose processing raises is re-raised by the handler (the claim says
it is not), no exception alert reaches the broker because the
plugin.send_exception call in _send_exception_alert does not bind (its
keyword arguments do not match the plugin signature, the TypeError is
swallowed), and the listener abandons the message instead of completing
it. -/
theorem C1_counterexample :
    (handle_message (some ["email_parsed"]) ⟨.error "boom", []⟩
        msgBoom).1 = .error "boom" ∧
    (handle_message (some ["email_parsed"]) ⟨.error "boom", []⟩
        msgBoom).2 = [] ∧
    kwargsBind pluginSendExceptionParams baseAgentSendExceptionKwargs =
      false ∧
    listenerStep false
        (handlerSucceeded
          (handle_message (some ["email_parsed"]) ⟨.error "boom", []⟩
            msgBoom).1) = .handlerAbandoned ∧
    MsgAction.handlerAbandoned ≠ MsgAction.completed := by
  refine ⟨rfl, rfl, by decide, rfl, by decide⟩

/-- C1 amended: when processing raises after the message-type check, the
handler catches the exception, attempts the high-priority
TECHNICAL_ERROR alert (the attempt publishes nothing because the
plugin.send_exception keyword arguments do not bind and the TypeError
is swallowed), re-raises the original exception into the listener loop,
and the listener abandons the triggering message (returning it for
redelivery) rather than completing it. -/
theorem C1_amended (expected : Option (List String)) (llm : LLMRun)
    (msg : StdMessage) (e : String)
    (hskip : unexpectedType expected msg.message_type = false)
    (herr : llm.result = .error e) :
    handle_message expected llm msg = (.error e, llm.effects) ∧
    send_exception_alert_helper "TECHNICAL_ERROR" "high"
        ("Failed to process message: " ++ e) msg.loan_application_id =
      [] ∧
    listenerStep false
        (handlerSucceeded (handle_message expected llm msg).1) =
      .handlerAbandoned := by
  have halert : send_exception_alert_helper "TECHNICAL_ERROR" "high"
      ("Failed to process message: " ++ e) msg.loan_application_id = [] := by
    unfold send_exception_alert_helper
    rw [if_neg]
    intro hbind
    exact absurd hbind (by decide)
  have hmain : handle_message expected llm msg = (.error e, llm.effects) := by
    simp [handle_message, hskip, herr, halert]
  exact ⟨hmain, halert, by rw [hmain]; rfl⟩

/-- Witness for C1 amended at the concrete raising run. -/
theorem C1_amended_witness :
    handle_message (some ["email_parsed"]) ⟨.error "crash", [.llmStep 1]⟩
        msgBoom = (.error "crash", [.llmStep 1]) ∧
    send_exception_alert_helper "TECHNICAL_ERROR" "high"
        ("Failed to process message: " ++ "crash")
        msgBoom.loan_application_id = [] :=
  ⟨(C1_amended (some ["email_parsed"]) ⟨.error "crash", [.llmStep 1]⟩
      msgBoom "crash" (by rfl) rfl).1,
   (C1_amended (some ["email_parsed"]) ⟨.error "crash", [.llmStep 1]⟩
      msgBoom "crash" (by rfl) rfl).2.1⟩

/-- C2 counterexample: the application properties carry MessageType A
and LoanApplicationId L1, the JSON body carries message_type B and
loan_application_id L2; the normalized envelope resolves to the body
values B and L2, not the property values A and L1 the claim requires. -/
theorem C2_counterexample :
    create_standard_message
        (fun _ => some (.obj [("message_type", Json.str "B"),
          ("loan_application_id", Json.str "L2")]))
        { body := .str "BODY"
          application_properties :=
            [("MessageType", "A"), ("LoanApplicationId", "L1")]
          correlation_id := Option.none
          message_id := "m1"
          content_type := Option.none
          delivery_count := 1
          enqueued_time := Option.none } =
      .ok { message_type := some (.str "B")
            loan_application_id := some (.str "L2")
            body := .json (.obj [("message_type", Json.str "B"),
              ("loan_application_id", Json.str "L2")])
            correlation_id := Option.none
            message_id := "m1"
            properties :=
              [("MessageType", "A"), ("LoanApplicationId", "L1")] } ∧
    some (Json.str "B") ≠ some (Json.str "A") ∧
    some (Json.str "L2") ≠ some (Json.str "L1") := by
  refine ⟨rfl, by simp, by simp⟩

/-- C2 amended: the precedence is the reverse of the claimed one — a
truthy field of a JSON-object body wins; the transport routing property
is used only when the body field is absent or falsy (or the body is not
a JSON object); when both are absent the field is null.  The final
conjunct ties the resolution to the envelope constructor. -/
theorem C2_amended (props : List (String × String)) (pk bk : String)
    (fields : List (String × Json)) :
    (∀ v, alistGet fields bk = some v → v.truthy = true →
      resolveField props pk (.json (.obj fields)) bk = some v) ∧
    (alistGet fields bk = Option.none →
      resolveField props pk (.json (.obj fields)) bk =
        (propsGet props pk).map Json.str) ∧
    (∀ v, alistGet fields bk = some v → v.truthy = false →
      resolveField props pk (.json (.obj fields)) bk =
        (propsGet props pk).map Json.str) ∧
    (propsGet props pk = Option.none → alistGet fields bk = Option.none →
      resolveField props pk (.json (.obj fields)) bk = Option.none) ∧
    (∀ jloads (msg : TransportMsg) env,
      create_standard_message jloads msg = .ok env →
      env.message_type = resolveField msg.application_properties
          "MessageType" env.body "message_type" ∧
      env.loan_application_id = resolveField msg.application_properties
          "LoanApplicationId" env.body "loan_application_id") := by
  refine ⟨?_, ?_, ?_, ?_, ?_⟩
  · intro v hv ht
    simp [resolveField, hv, ht]
  · intro hnone
    simp [resolveField, hnone]
  · intro v hv ht
    simp [resolveField, hv, ht]
  · intro hp hnone
    simp [resolveField, hnone, hp]
  · intro jloads msg env henv
    unfold create_standard_message at henv
    cases hp : parse_message_body jloads msg.body with
    | error e =>
      rw [hp] at henv
      exact absurd henv (by simp [Bind.bind, Except.bind])
    | ok pb =>
      rw [hp] at henv
      simp only [Bind.bind, Except.bind, pure, Except.pure, Except.ok.injEq]
        at henv
      rw [← henv]
      exact ⟨rfl, rfl⟩

/-- Witness for C2 amended: body field wins when truthy, property used
when the body field is absent. -/
theorem C2_amended_witness :
    resolveField [("MessageType", "A")] "MessageType"
        (.json (.obj [("message_type", Json.str "B")])) "message_type" =
      some (.str "B") ∧
    resolveField [("MessageType", "A")] "MessageType"
        (.json (.obj [])) "message_type" = some (.str "A") :=
  ⟨(C2_amended [("MessageType", "A")] "MessageType" _
      [("message_type", Json.str "B")]).1 (Json.str "B") rfl rfl,
   by
    have h := (C2_amended [("MessageType", "A")] "MessageType"
      "message_type" []).2.1 rfl
    simpa using h⟩

/-- C7 counterexample: a bytes body that is not valid UTF-8 makes the
parser raise (UnicodeDecodeError from bytes.decode), refuting the claim
that body parsing never raises for malformed content of any raw body. -/
theorem C7_counterexample :
    parse_message_body (fun _ => Option.none) (.bytes [255]) =
      .error .unicodeDecodeError := rfl

/-- C7 amended: whenever the raw body assembles to a text (None, valid
UTF-8 bytes, a string, or an iterable of strings and valid UTF-8 bytes),
parsing does not raise: well-formed JSON text yields the parsed object,
other non-empty text is returned as plain text, and empty or absent
input yields the empty string; a body containing invalid UTF-8 bytes,
however, propagates the decode error. -/
theorem C7_amended (jloads : String → Option Json) (raw : RawBody) :
    (∀ s, assembleBodyText raw = .ok s →
      parse_message_body jloads raw =
        .ok (if s = "" then .text ""
          else match jloads s with
            | some j => .json j
            | Option.none => .text s)) ∧
    (∀ e, raw.falsy = false → assembleBodyText raw = .error e →
      parse_message_body jloads raw = .error e) := by
  constructor
  · intro s hs
    by_cases hfalsy : raw.falsy
    · have hempty : s = "" := by
        have : assembleBodyText raw = .ok "" := by
          cases raw with
          | none => rfl
          | bytes bs =>
            have : bs = [] := by
              simpa [RawBody.falsy, List.isEmpty_iff] using hfalsy
            subst this; rfl
          | str t =>
            have : t = "" := by simpa [RawBody.falsy] using hfalsy
            subst this; rfl
          | parts ps =>
            have : ps = [] := by
              simpa [RawBody.falsy, List.isEmpty_iff] using hfalsy
            subst this; rfl
        rw [this] at hs
        exact (Except.ok.injEq _ _ ▸ hs).symm
      subst hempty
      simp [parse_message_body, hfalsy]
    · simp only [parse_message_body, hfalsy, Bool.false_eq_true, if_false]
      rw [hs]
      by_cases hse : s = ""
      · simp [hse, Bind.bind, Except.bind, pure, Except.pure]
      · cases hj : jloads s <;>
          simp [hse, hj, Bind.bind, Except.bind, pure, Except.pure]
  · intro e hfalsy herr
    simp [parse_message_body, hfalsy, herr, Bind.bind, Except.bind]

/-- Witness for C7 amended: plain non-JSON text is kept as text, and an
invalid-UTF-8 bytes body propagates the decode error. -/
theorem C7_amended_witness :
    parse_message_body (fun _ => Option.none) (.str "hello") =
      .ok (.text "hello") ∧
    parse_message_body (fun _ => Option.none) (.bytes [255, 65]) =
      .error .unicodeDecodeError :=
  ⟨by
    have h := (C7_amended (fun _ => Option.none) (.str "hello")).1
      "hello" rfl
    simpa using h,
   (C7_amended (fun _ => Option.none) (.bytes [255, 65])).2
     .unicodeDecodeError rfl rfl⟩

/-- C3 counterexample: a successful status update leaves the persisted
status_history unchanged at the operations layer (here the empty log
stays empty instead of growing by one entry), and the plugin wrapper
replaces a one-entry log with a freshly built one-entry log (final
length 1, not 2), so no new entry is appended in either case. -/
theorem C3_counterexample :
    (update_rate_lock_status [recHist0] "L1" "r1" "UnderReview" []
        100).1 = true ∧
    ((update_rate_lock_status [recHist0] "L1" "r1" "UnderReview" []
        100).2.head?.bind (fun r => alistGet r "status_history")) =
      some (.arr []) ∧
    historyLength recHist0 = some 0 ∧
    (plugin_update_rate_lock_status [recHist1] "L1" "r1" "UnderReview"
        (some "agentX") [] 100).1 = true ∧
    ((plugin_update_rate_lock_status [recHist1] "L1" "r1" "UnderReview"
        (some "agentX") [] 100).2.head?.bind
      (fun r => historyLength r)) = some 1 ∧
    historyLength recHist1 = some 1 ∧
    (1 : Nat) ≠ 1 + 1 := by
  refine ⟨rfl, rfl, rfl, rfl, rfl, rfl, by decide⟩

/-- C3 amended: on a successful status update the stored record gets
the requested status and a refreshed updated_at provided the patch does
not itself carry those keys, and the patch fields are merged in; but
the operation appends nothing to status_history — the log is unchanged
unless the patch carries a status_history value (the plugin wrapper
always does, carrying a freshly built list with the single new entry,
which replaces the persisted log instead of extending it). -/
theorem C3_amended (c : Container) (L rid status : String)
    (updates : List (String × Json)) (now : Nat)
    (rec : List (String × Json))
    (hfind : readItem "loanApplicationId" c L rid = some rec)
    (hnodup : (updates.map Prod.fst).Nodup) :
    (update_rate_lock_status c L rid status updates now).1 = true ∧
    ∃ rec3,
      (update_rate_lock_status c L rid status updates now).2 =
        replaceItem "loanApplicationId" c L rid rec3 ∧
      (alistGet updates "status" = Option.none →
        alistGet rec3 "status" = some (.str status)) ∧
      (alistGet updates "updated_at" = Option.none →
        alistGet rec3 "updated_at" = some (.str (isoStr now))) ∧
      (∀ k v, alistGet updates k = some v → alistGet rec3 k = some v) ∧
      (alistGet updates "status_history" = Option.none →
        alistGet rec3 "status_history" = alistGet rec "status_history") := by
  have hupdates : ∀ d : List (String × Json),
      (if updates.isEmpty then d else alistUpdate d updates) =
        alistUpdate d updates := by
    intro d
    by_cases he : updates.isEmpty
    · have : updates = [] := List.isEmpty_iff.mp he
      subst this
      simp [alistUpdate]
    · rw [if_neg he]
  unfold update_rate_lock_status
  rw [hfind]
  simp only [hupdates]
  refine ⟨by trivial, alistUpdate (alistSet (alistSet rec "status"
    (.str status)) "updated_at" (.str (isoStr now))) updates, by trivial,
    ?_, ?_, ?_, ?_⟩
  · intro hnost
    rw [alistGet_alistUpdate_of_none _ _ _ hnost,
      alistGet_alistSet_ne _ _ _ _ (by decide),
      alistGet_alistSet_self]
  · intro hnoupd
    rw [alistGet_alistUpdate_of_none _ _ _ hnoupd,
      alistGet_alistSet_self]
  · intro k v hkv
    exact alistGet_alistUpdate_of_some _ _ _ _ hnodup hkv
  · intro hnohist
    rw [alistGet_alistUpdate_of_none _ _ _ hnohist,
      alistGet_alistSet_ne _ _ _ _ (by decide),
      alistGet_alistSet_ne _ _ _ _ (by decide)]

/-- Witness for C3 amended at a concrete record and patch. -/
theorem C3_amended_witness :
    (update_rate_lock_status [recHist0] "L1" "r1" "UnderReview"
        [("loan_context", .obj [])] 100).1 = true :=
  (C3_amended [recHist0] "L1" "r1" "UnderReview"
    [("loan_context", .obj [])] 100 recHist0 rfl (by simp)).1

/-- C4 counterexample: a second create for the same loan application id
at a later timestamp reports success and appends a second record; the
existing record is still present unchanged (the container grows from
one to two records), so the duplicate create does not overwrite. -/
theorem C4_counterexample :
    create_rate_lock_record [] "L1" [] 100 = (true, [recT100]) ∧
    (create_rate_lock_record [recT100] "L1" [] 200).1 = true ∧
    (create_rate_lock_record [recT100] "L1" [] 200).2.length = 2 ∧
    (create_rate_lock_record [recT100] "L1" [] 200).2.head? =
      some recT100 ∧
    (2 : Nat) ≠ 1 := by
  refine ⟨rfl, rfl, rfl, rfl, by decide⟩

/-- C4 amended: a create for a loan id that already has a record does
not overwrite it: when the caller data supplies no id, a fresh
timestamp-derived id is generated, the new record is appended after the
existing ones (which stay intact) and success is reported — AlreadyExists
is indeed not enforced on the loan id; only a create whose document id
and partition key collide with a stored record fails, reported as False
with the container unchanged, rather than overwriting. -/
theorem C4_amended (c : Container) (L : String)
    (data : List (String × Json)) (now : Nat)
    (hid : alistGet data "id" = Option.none)
    (hpk : alistGet data "loanApplicationId" = Option.none) :
    ((∀ r ∈ c, ¬(docStrField r "id" =
          some ("rate_lock_" ++ L ++ "_" ++ fmtTs now) ∧
        docStrField r "loanApplicationId" = some L)) →
      ∃ rec2, create_rate_lock_record c L data now = (true, c ++ [rec2]) ∧
        docStrField rec2 "id" =
          some ("rate_lock_" ++ L ++ "_" ++ fmtTs now) ∧
        docStrField rec2 "loanApplicationId" = some L) ∧
    ((∃ r ∈ c, docStrField r "id" =
          some ("rate_lock_" ++ L ++ "_" ++ fmtTs now) ∧
        docStrField r "loanApplicationId" = some L) →
      create_rate_lock_record c L data now = (false, c)) := by
  set newId := "rate_lock_" ++ L ++ "_" ++ fmtTs now with hnew
  set base : List (String × Json) :=
    [("id", .str newId), ("loanApplicationId", .str L),
     ("created_at", .str (isoStr now)),
     ("updated_at", .str (isoStr now)),
     ("status", (alistGet data "status").getD (.str "PendingRequest"))]
    with hbase
  have hrec : alistUpdate base data =
      alistUpdate base data := rfl
  have hrecid : docStrField (alistUpdate base data) "id" = some newId := by
    unfold docStrField
    rw [alistGet_alistUpdate_of_none _ _ _ hid]
    rfl
  have hrecpk : docStrField (alistUpdate base data) "loanApplicationId" =
      some L := by
    unfold docStrField
    rw [alistGet_alistUpdate_of_none _ _ _ hpk]
    rfl
  constructor
  · intro hnoc
    refine ⟨alistUpdate base data, ?_, hrecid, hrecpk⟩
    unfold create_rate_lock_record
    simp only [← hnew, ← hbase]
    have hrecord : alistUpdate
        [("id", (alistGet data "id").getD (.str newId)),
         ("loanApplicationId", .str L),
         ("created_at", .str (isoStr now)),
         ("updated_at", .str (isoStr now)),
         ("status", (alistGet data "status").getD (.str "PendingRequest"))]
        data = alistUpdate base data := by
      rw [hid, hbase]
      rfl
    rw [hrecord]
    have hany : c.any (fun r =>
        docStrField r "id" = docStrField (alistUpdate base data) "id" &&
        docStrField r "loanApplicationId" =
          docStrField (alistUpdate base data) "loanApplicationId") =
        false := by
      rw [List.any_eq_false]
      intro r hr
      rw [hrecid, hrecpk]
      intro hcontra
      rcases Bool.and_eq_true .. |>.mp hcontra with ⟨h1, h2⟩
      exact hnoc r hr ⟨by simpa using h1, by simpa using h2⟩
    unfold createItem
    rw [if_neg (by rw [hany]; exact Bool.false_ne_true)]
  · intro hconf
    unfold create_rate_lock_record
    simp only [← hnew, ← hbase]
    have hrecord : alistUpdate
        [("id", (alistGet data "id").getD (.str newId)),
         ("loanApplicationId", .str L),
         ("created_at", .str (isoStr now)),
         ("updated_at", .str (isoStr now)),
         ("status", (alistGet data "status").getD (.str "PendingRequest"))]
        data = alistUpdate base data := by
      rw [hid, hbase]
      rfl
    rw [hrecord]
    have hany : c.any (fun r =>
        docStrField r "id" = docStrField (alistUpdate base data) "id" &&
        docStrField r "loanApplicationId" =
          docStrField (alistUpdate base data) "loanApplicationId") =
        true := by
      rcases hconf with ⟨r, hr, h1, h2⟩
      rw [List.any_eq_true]
      refine ⟨r, hr, ?_⟩
      rw [hrecid, hrecpk]
      simp [h1, h2]
    unfold createItem
    rw [if_pos (by rw [hany])]

/-- Witness for C4 amended: the duplicate create at time 200 appends. -/
theorem C4_amended_witness :
    (create_rate_lock_record [recT100] "L1" [] 200).1 = true := by
  obtain ⟨rec2, heq, _, _⟩ :=
    (C4_amended [recT100] "L1" [] 200 rfl rfl).1
      (by
        intro r hr
        simp only [List.mem_singleton] at hr
        subst hr
        intro hcontra
        have : ("rate_lock_L1_100" : String) = "rate_lock_L1_200" := by
          have h1 := hcontra.1
          simp [recT100, docStrField, alistGet, List.find?] at h1
          exact h1
        simp at this)
  rw [heq]

/-! ## Retry-loop invariant for _call_llm -/

theorem call_llm_go_spec (oracle : Nat → LLMOutcome) (u : Nat → ℚ)
    (base : ℚ) (maxR : Nat) :
    ∀ fuel rc, rc + fuel = maxR + 1 → rc ≤ maxR →
      (∀ i, i < (call_llm_go oracle u base maxR rc fuel).2.length →
        oracle (rc + i) = .rateLimit ∧
        (call_llm_go oracle u base maxR rc fuel).2.get? i =
          some ((2 ^ (rc + i + 1) : ℚ) * base +
            ((2 ^ (rc + i + 1) : ℚ) * base) * u (rc + i + 1))) ∧
      (call_llm_go oracle u base maxR rc fuel).2.length ≤ maxR - rc ∧
      ((∀ k, rc ≤ k → k ≤ maxR → oracle k = .rateLimit) →
        (call_llm_go oracle u base maxR rc fuel).1 =
            .error .rateLimitExceeded ∧
        (call_llm_go oracle u base maxR rc fuel).2.length = maxR - rc) ∧
      (∀ e, oracle (rc + (call_llm_go oracle u base maxR rc fuel).2.length)
            = .otherError e →
        (call_llm_go oracle u base maxR rc fuel).1 =
          .error (.other e)) := by
  intro fuel
  induction fuel with
  | zero =>
    intro rc hsum hle
    omega
  | succ fuel ih =>
    intro rc hsum hle
    cases horacle : oracle rc with
    | success s =>
      simp only [call_llm_go, horacle]
      refine ⟨by simp, by simp, ?_, ?_⟩
      · intro hall
        exact absurd (hall rc le_rfl hle) (by rw [horacle]; intro h; cases h)
      · intro e he
        simp only [List.length_nil, Nat.add_zero] at he
        rw [horacle] at he
        cases he
    | otherError e0 =>
      simp only [call_llm_go, horacle]
      refine ⟨by simp, by simp, ?_, ?_⟩
      · intro hall
        exact absurd (hall rc le_rfl hle) (by rw [horacle]; intro h; cases h)
      · intro e he
        simp only [List.length_nil, Nat.add_zero] at he
        rw [horacle] at he
        cases he
        rfl
    | rateLimit =>
      by_cases hmax : maxR < rc + 1
      · have hrceq : rc = maxR := by omega
        simp only [call_llm_go, horacle, if_pos hmax]
        refine ⟨by simp, by simp, ?_, ?_⟩
        · intro _
          exact ⟨by trivial, by simp [hrceq]⟩
        · intro e he
          simp only [List.length_nil, Nat.add_zero] at he
          rw [horacle] at he
          cases he
      · have hrc1 : rc + 1 ≤ maxR := by omega
        have hsum1 : (rc + 1) + fuel = maxR + 1 := by omega
        obtain ⟨ih1, ih2, ih3, ih4⟩ := ih (rc + 1) hsum1 hrc1
        simp only [call_llm_go, horacle, if_neg hmax]
        refine ⟨?_, ?_, ?_, ?_⟩
        · intro i hi
          cases i with
          | zero =>
            exact ⟨by simpa using horacle, by rfl⟩
          | succ j =>
            simp only [List.length_cons] at hi
            have hj := ih1 j (by omega)
            have hidx : rc + 1 + j = rc + (j + 1) := by omega
            rw [hidx] at hj
            exact ⟨hj.1, by simpa using hj.2⟩
        · simp only [List.length_cons]
          omega
        · intro hall
          have hall1 : ∀ k, rc + 1 ≤ k → k ≤ maxR → oracle k = .rateLimit :=
            fun k hk1 hk2 => hall k (by omega) hk2
          obtain ⟨hres, hlen⟩ := ih3 hall1
          refine ⟨hres, ?_⟩
          simp only [List.length_cons, hlen]
          omega
        · intro e he
          simp only [List.length_cons] at he
          have hidx : rc + ((call_llm_go oracle u base maxR (rc + 1)
              fuel).2.length + 1) =
              (rc + 1) + (call_llm_go oracle u base maxR (rc + 1)
                fuel).2.length := by omega
          rw [hidx] at he
          exact ih4 e he

/-- C8: only rate-limit failures of the oracle call are retried; retry
number k (1 ≤ k ≤ the attempt bound, default 5) sleeps 2^k times the
base delay plus a jitter between 0 and 25 percent of that delay; when
every attempt up to the bound is rate-limited the rate-limit error is
raised to the handler boundary after the bound is exhausted; and a
non-rate-limit exception is raised immediately with no retry. -/
theorem C8_retry_policy (oracle : Nat → LLMOutcome) (u : Nat → ℚ)
    (base : ℚ) (maxR : Nat) (hbase : 0 ≤ base)
    (hu : ∀ k, 0 ≤ u k ∧ u k ≤ 1 / 4) :
    (∀ e, oracle 0 = .otherError e →
      call_llm oracle u maxR base = (.error (.other e), [])) ∧
    (∀ i, i < (call_llm oracle u maxR base).2.length →
      oracle i = .rateLimit ∧
      ∃ j, 0 ≤ j ∧ j ≤ (2 ^ (i + 1) : ℚ) * base / 4 ∧
        (call_llm oracle u maxR base).2.get? i =
          some ((2 ^ (i + 1) : ℚ) * base + j)) ∧
    (call_llm oracle u maxR base).2.length ≤ maxR ∧
    ((∀ k, k ≤ maxR → oracle k = .rateLimit) →
      (call_llm oracle u maxR base).1 = .error .rateLimitExceeded ∧
      (call_llm oracle u maxR base).2.length = maxR) ∧
    (∀ e, oracle (call_llm oracle u maxR base).2.length = .otherError e →
      (call_llm oracle u maxR base).1 = .error (.other e)) := by
  obtain ⟨h1, h2, h3, h4⟩ :=
    call_llm_go_spec oracle u base maxR (maxR + 1) 0 (by omega)
      (Nat.zero_le _)
  have hcall : call_llm oracle u maxR base =
      call_llm_go oracle u base maxR 0 (maxR + 1) := rfl
  refine ⟨?_, ?_, ?_, ?_, ?_⟩
  · intro e he
    have hempty : (call_llm oracle u maxR base).2 = [] := by
      rcases hl : (call_llm oracle u maxR base).2 with _ | ⟨d, ds⟩
      · rfl
      · have := (h1 0 (by rw [hcall] at hl; rw [hl]; simp)).1
        rw [Nat.zero_add] at this
        rw [this] at he
        cases he
    have hres := h4 e (by
      rw [← hcall, hempty, List.length_nil, Nat.add_zero]
      exact he)
    rw [hcall] at hempty ⊢
    exact Prod.ext hres hempty
  · intro i hi
    rw [hcall] at hi
    obtain ⟨ho, hget⟩ := h1 i hi
    rw [Nat.zero_add] at ho hget
    refine ⟨ho, (2 ^ (i + 1) : ℚ) * base * u (i + 1), ?_, ?_, ?_⟩
    · exact mul_nonneg (mul_nonneg (by positivity) hbase) (hu (i + 1)).1
    · calc (2 ^ (i + 1) : ℚ) * base * u (i + 1) ≤
            (2 ^ (i + 1) : ℚ) * base * (1 / 4) := by
            apply mul_le_mul_of_nonneg_left (hu (i + 1)).2
            exact mul_nonneg (by positivity) hbase
        _ = (2 ^ (i + 1) : ℚ) * base / 4 := by ring
    · rw [hcall]
      exact hget
  · rw [hcall]
    simpa using h2
  · intro hall
    obtain ⟨hres, hlen⟩ := h3 (fun k _ hk2 => hall k hk2)
    rw [hcall]
    exact ⟨hres, by simpa using hlen⟩
  · intro e he
    rw [hcall] at he ⊢
    exact h4 e (by rw [Nat.zero_add]; exact he)

/-- Witness for C8: with every attempt rate-limited, zero jitter and
base delay 1, the call raises the rate-limit error after exactly five
backoff sleeps. -/
theorem C8_retry_policy_witness :
    (call_llm (fun _ => .rateLimit) (fun _ => 0) 5 1).1 =
        .error .rateLimitExceeded ∧
    (call_llm (fun _ => .rateLimit) (fun _ => 0) 5 1).2.length = 5 :=
  (C8_retry_policy (fun _ => .rateLimit) (fun _ => 0) 1 5 (by norm_num)
    (fun k => ⟨le_refl 0, by norm_num⟩)).2.2.2.1 (fun k _ => rfl)

end RateLock
